import Mathlib

/-!
Shallow embedding of the `message-sink` crate (length-prefixed message
framing over a byte stream, plus the poll-driven `MessageSink` state
machine).

Bytes are modelled as natural numbers; a well-formed byte is `< 256`.
Buffers (`Vec<u8>`) are `List Nat`.  The platform's `usize` width is an
explicit parameter `usizeBits` (the `u32 -> usize` conversion in
`Frame::try_from` fails exactly when the value does not fit in
`usizeBits` bits).  `std::io::Error` values are modelled as `Nat` codes.
-/

/-- `u32::from_le_bytes` on four bytes (little-endian). -/
def fromLeBytes4 (b0 b1 b2 b3 : Nat) : Nat :=
  b0 + 256 * b1 + 65536 * b2 + 16777216 * b3

/-- `u32::to_le_bytes` of a value (little-endian, four bytes). -/
def toLeBytes4 (n : Nat) : List Nat :=
  [n % 256, n / 256 % 256, n / 65536 % 256, n / 16777216 % 256]

/-- `ParseError` from `frame.rs`. -/
inductive ParseError where
  | NotReady
  | Corrupt
deriving DecidableEq

/-- `TryInto<Vec<u8>> for Frame` from `frame.rs`: prepend the 4-byte
little-endian length header; the `usize -> u32` conversion fails (with
`ParseError::Corrupt`) exactly when the length does not fit in 32 bits. -/
def Frame.encode (message : List Nat) : Except ParseError (List Nat) :=
  if message.length < 2 ^ 32 then
    Except.ok (toLeBytes4 message.length ++ message)
  else
    Except.error ParseError.Corrupt

/-- `Frame::try_from` from `frame.rs`, under exact arithmetic.  Returns
the parse result together with the buffer as left after the call (the
Rust function mutates the buffer in place).  `usizeBits` is the platform
`usize` width: the `u32 -> usize` conversion fails exactly when the
header value is `>= 2 ^ usizeBits`.  The test `buffer.length < size + 4`
computes `size + 4` in unbounded `Nat`, whereas the source computes it
in `usize`; the two agree exactly when `size + 4 < 2 ^ usizeBits` (in
particular always when `usizeBits >= 34`, since `size < 2 ^ 32`), and
when that sum overflows `usize` the program panics instead of returning.
`Frame.tryFromUsize` below models the `usize` arithmetic bit-faithfully,
panic included; `tryFromUsize_eq_tryFrom` proves the two models agree
whenever the addition does not overflow. -/
def Frame.tryFrom (usizeBits : Nat) (buffer : List Nat) :
    Except ParseError (List Nat) × List Nat :=
  match buffer with
  | b0 :: b1 :: b2 :: b3 :: rest =>
    let size := fromLeBytes4 b0 b1 b2 b3
    if 2 ^ usizeBits ≤ size then
      (Except.error ParseError.Corrupt, buffer)
    else if buffer.length < size + 4 then
      (Except.error ParseError.NotReady, buffer)
    else
      (Except.ok (rest.take size), rest.drop size)
  | _ => (Except.error ParseError.NotReady, buffer)

/-- `Frame::try_from` with the `size + 4` addition performed in `usize`,
bit-faithfully; `none` models a panic.  When `2 ^ usizeBits <= size + 4`
(only possible for `usizeBits` of 32 or 33, given `size < 2 ^ 32`) the
program panics in both compilation profiles: in debug, `size + 4` itself
panics on overflow; in release it wraps to `size + 4 - 2 ^ usizeBits`,
which is at most 3, so the not-ready guard `wrapped > buffer.len()`
fails (the buffer holds at least the 4 header bytes), the header is
drained, and `buffer.drain(0..size)` then panics out of range, because a
real `Vec` holds at most `2 ^ usizeBits - 1` bytes while
`size >= 2 ^ usizeBits - 4` exceeds the at most `2 ^ usizeBits - 5`
remaining bytes. -/
def Frame.tryFromUsize (usizeBits : Nat) (buffer : List Nat) :
    Option (Except ParseError (List Nat) × List Nat) :=
  match buffer with
  | b0 :: b1 :: b2 :: b3 :: rest =>
    let size := fromLeBytes4 b0 b1 b2 b3
    if 2 ^ usizeBits ≤ size then
      some (Except.error ParseError.Corrupt, buffer)
    else if 2 ^ usizeBits ≤ size + 4 then
      none
    else if buffer.length < size + 4 then
      some (Except.error ParseError.NotReady, buffer)
    else
      some (Except.ok (rest.take size), rest.drop size)
  | _ => some (Except.error ParseError.NotReady, buffer)

/-- The payload length declared by a buffer's first four bytes (used only
to state claims; `0` when fewer than four bytes are present). -/
def declaredLen : List Nat → Nat
  | b0 :: b1 :: b2 :: b3 :: _ => fromLeBytes4 b0 b1 b2 b3
  | _ => 0

theorem pow32_eq : (2 : Nat) ^ 32 = 4294967296 := by norm_num

theorem fromLe_toLe (n : Nat) (h : n < 2 ^ 32) :
    fromLeBytes4 (n % 256) (n / 256 % 256) (n / 65536 % 256) (n / 16777216 % 256) = n := by
  rw [pow32_eq] at h
  unfold fromLeBytes4
  omega

theorem fromLeBytes4_lt (b0 b1 b2 b3 : Nat)
    (h0 : b0 < 256) (h1 : b1 < 256) (h2 : b2 < 256) (h3 : b3 < 256) :
    fromLeBytes4 b0 b1 b2 b3 < 2 ^ 32 := by
  rw [pow32_eq]
  unfold fromLeBytes4
  omega

theorem tryFrom_cons (usizeBits b0 b1 b2 b3 : Nat) (rest : List Nat) :
    Frame.tryFrom usizeBits (b0 :: b1 :: b2 :: b3 :: rest) =
      if 2 ^ usizeBits ≤ fromLeBytes4 b0 b1 b2 b3 then
        (Except.error ParseError.Corrupt, b0 :: b1 :: b2 :: b3 :: rest)
      else if (b0 :: b1 :: b2 :: b3 :: rest).length < fromLeBytes4 b0 b1 b2 b3 + 4 then
        (Except.error ParseError.NotReady, b0 :: b1 :: b2 :: b3 :: rest)
      else
        (Except.ok (rest.take (fromLeBytes4 b0 b1 b2 b3)),
          rest.drop (fromLeBytes4 b0 b1 b2 b3)) := rfl

theorem tryFromUsize_cons (usizeBits b0 b1 b2 b3 : Nat) (rest : List Nat) :
    Frame.tryFromUsize usizeBits (b0 :: b1 :: b2 :: b3 :: rest) =
      if 2 ^ usizeBits ≤ fromLeBytes4 b0 b1 b2 b3 then
        some (Except.error ParseError.Corrupt, b0 :: b1 :: b2 :: b3 :: rest)
      else if 2 ^ usizeBits ≤ fromLeBytes4 b0 b1 b2 b3 + 4 then
        none
      else if (b0 :: b1 :: b2 :: b3 :: rest).length < fromLeBytes4 b0 b1 b2 b3 + 4 then
        some (Except.error ParseError.NotReady, b0 :: b1 :: b2 :: b3 :: rest)
      else
        some (Except.ok (rest.take (fromLeBytes4 b0 b1 b2 b3)),
          rest.drop (fromLeBytes4 b0 b1 b2 b3)) := rfl

theorem tryFromUsize_eq_tryFrom (usizeBits : Nat) (buffer : List Nat)
    (hov : declaredLen buffer + 4 < 2 ^ usizeBits) :
    Frame.tryFromUsize usizeBits buffer = some (Frame.tryFrom usizeBits buffer) := by
  rcases buffer with _ | ⟨b0, _ | ⟨b1, _ | ⟨b2, _ | ⟨b3, rest⟩⟩⟩⟩
  · rfl
  · rfl
  · rfl
  · rfl
  · simp only [declaredLen] at hov
    have h1 : ¬ 2 ^ usizeBits ≤ fromLeBytes4 b0 b1 b2 b3 := by omega
    have h2 : ¬ 2 ^ usizeBits ≤ fromLeBytes4 b0 b1 b2 b3 + 4 := by omega
    rw [tryFromUsize_cons, tryFrom_cons, if_neg h1, if_neg h2, if_neg h1]
    by_cases hlt :
        (b0 :: b1 :: b2 :: b3 :: rest).length < fromLeBytes4 b0 b1 b2 b3 + 4
    · rw [if_pos hlt, if_pos hlt]
    · rw [if_neg hlt, if_neg hlt]

theorem tryFrom_short (usizeBits : Nat) (buffer : List Nat) (h : buffer.length < 4) :
    Frame.tryFrom usizeBits buffer = (Except.error ParseError.NotReady, buffer) := by
  rcases buffer with _ | ⟨a, _ | ⟨b, _ | ⟨c, _ | ⟨d, rest⟩⟩⟩⟩
  · rfl
  · rfl
  · rfl
  · rfl
  · simp [List.length_cons] at h
    omega

theorem tryFrom_snd_le (usizeBits : Nat) (buffer : List Nat) :
    (Frame.tryFrom usizeBits buffer).2.length ≤ buffer.length := by
  rcases buffer with _ | ⟨b0, _ | ⟨b1, _ | ⟨b2, _ | ⟨b3, rest⟩⟩⟩⟩
  · simp [Frame.tryFrom]
  · simp [Frame.tryFrom]
  · simp [Frame.tryFrom]
  · simp [Frame.tryFrom]
  · rw [tryFrom_cons]
    split
    · simp
    · split
      · simp
      · simp [List.length_drop, List.length_cons]
        omega

theorem tryFrom_not_corrupt (usizeBits : Nat) (buffer : List Nat)
    (h32 : 32 ≤ usizeBits) (hb : ∀ b ∈ buffer, b < 256) :
    (Frame.tryFrom usizeBits buffer).1 ≠ Except.error ParseError.Corrupt := by
  rcases buffer with _ | ⟨b0, _ | ⟨b1, _ | ⟨b2, _ | ⟨b3, rest⟩⟩⟩⟩
  · simp [Frame.tryFrom]
  · simp [Frame.tryFrom]
  · simp [Frame.tryFrom]
  · simp [Frame.tryFrom]
  · rw [tryFrom_cons]
    have hlt : fromLeBytes4 b0 b1 b2 b3 < 2 ^ 32 :=
      fromLeBytes4_lt b0 b1 b2 b3 (hb b0 (by simp)) (hb b1 (by simp))
        (hb b2 (by simp)) (hb b3 (by simp))
    have hnc : ¬ (2 ^ usizeBits ≤ fromLeBytes4 b0 b1 b2 b3) :=
      Nat.not_le.mpr (lt_of_lt_of_le hlt (Nat.pow_le_pow_right (by norm_num) h32))
    rw [if_neg hnc]
    split
    · simp
    · simp

/-- `SinkError` from `lib.rs` (`std::io::Error` payloads modelled as `Nat`
codes). -/
inductive SinkError where
  | Write (e : Nat)
  | Read (e : Nat)
  | LimitExceeded
  | Parse (e : ParseError)
  | Closed
deriving DecidableEq

/-- `SinkStatus` from `lib.rs`. -/
inductive SinkStatus where
  | Open
  | Closing
  | Closed
deriving DecidableEq

/-- `MessageSink` from `lib.rs`.  `writeBuffer` and `waker` together model
the `AsyncBuffer` (its byte buffer and its single waker slot; wakers are
identified by `Nat` ids).  The fixed 1024-byte scratch region is not a
separate field: the bytes a `poll_read` deposits there are delivered
directly by the read oracle (see `StreamBehavior`). -/
structure MessageSink where
  readBuffer : List Nat
  writeBuffer : List Nat
  waker : Option Nat
  status : SinkStatus
  limit : Nat
deriving DecidableEq

/-- `MessageSink::new`, with `limit` defaulted to `usize::MAX`. -/
def MessageSink.new (usizeBits : Nat) : MessageSink :=
  { readBuffer := [], writeBuffer := [], waker := none,
    status := SinkStatus.Open, limit := 2 ^ usizeBits - 1 }

/-- `MessageSink::limit` (named `setLimit` because `limit` is the field
accessor). -/
def MessageSink.setLimit (s : MessageSink) (length : Nat) : MessageSink :=
  { s with limit := length }

/-- `MessageSink::write`: encode the message as a frame and append it to
the outbound `AsyncBuffer` (whose `extend` wakes and clears the waker
slot).  Returns the Rust `Result` together with the sink afterwards. -/
def MessageSink.write (s : MessageSink) (message : List Nat) :
    Except ParseError Unit × MessageSink :=
  match Frame.encode message with
  | Except.error e => (Except.error e, s)
  | Except.ok bytes =>
    (Except.ok (), { s with writeBuffer := s.writeBuffer ++ bytes, waker := none })

/-- `MessageSink::close`. -/
def MessageSink.close (s : MessageSink) : MessageSink :=
  { s with status := SinkStatus.Closing }

deriving instance DecidableEq for Except

/-- `Poll<T>` from the task system. -/
inductive PollRes (α : Type) where
  | ready (a : α)
  | pending
deriving DecidableEq

/-- One poll's worth of responses from the underlying stream: what
`poll_close`, `poll_write` and the successive `poll_read` calls would
return this invocation.  `cx` identifies the `Context`'s waker.  The read
loop consumes `readResults` in order; an exhausted list behaves as a
stream whose next read is `Pending` (a well-behaved non-blocking stream
returns `Pending` after finitely many ready reads within one poll —
otherwise the Rust loop itself would never terminate). -/
structure StreamBehavior where
  cx : Nat
  closeResult : PollRes (Except Nat Unit)
  writeResult : PollRes (Except Nat Nat)
  readResults : List (PollRes (Except Nat (List Nat)))
deriving DecidableEq

/-- The decode attempt after the read loop breaks (`lib.rs` lines
148-155): a frame resolves the poll, `NotReady` falls through to
`Poll::Pending`, `Corrupt` closes the sink (`close()` sets `Closing`)
and surfaces a parse fault. -/
def MessageSink.finalDecode (usizeBits : Nat) (sink : MessageSink) :
    MessageSink × PollRes (Except SinkError (List Nat)) :=
  match Frame.tryFrom usizeBits sink.readBuffer with
  | (Except.ok msg, buf) => ({ sink with readBuffer := buf }, PollRes.ready (Except.ok msg))
  | (Except.error ParseError.NotReady, _) => (sink, PollRes.pending)
  | (Except.error ParseError.Corrupt, buf) =>
    ({ sink with readBuffer := buf, status := SinkStatus.Closing },
      PollRes.ready (Except.error (SinkError.Parse ParseError.Corrupt)))

/-- The read loop of `MessageSink::poll` (`lib.rs` lines 121-147): each
iteration performs one `poll_read`; a ready read first checks the size
limit, then appends to `read_buffer` and attempts a decode; a read fault
or a corrupt frame closes the sink; `Pending` (or an exhausted oracle)
breaks to the final decode attempt. -/
def MessageSink.readLoop (usizeBits : Nat) (sink : MessageSink) :
    List (PollRes (Except Nat (List Nat))) →
      MessageSink × PollRes (Except SinkError (List Nat))
  | [] => MessageSink.finalDecode usizeBits sink
  | PollRes.pending :: _ => MessageSink.finalDecode usizeBits sink
  | PollRes.ready (Except.error e) :: _ =>
    ({ sink with status := SinkStatus.Closing },
      PollRes.ready (Except.error (SinkError.Read e)))
  | PollRes.ready (Except.ok bytes) :: rest =>
    if sink.readBuffer.length + bytes.length > sink.limit then
      ({ sink with status := SinkStatus.Closing },
        PollRes.ready (Except.error SinkError.LimitExceeded))
    else
      match Frame.tryFrom usizeBits (sink.readBuffer ++ bytes) with
      | (Except.ok msg, buf) =>
        ({ sink with readBuffer := buf }, PollRes.ready (Except.ok msg))
      | (Except.error ParseError.NotReady, _) =>
        MessageSink.readLoop usizeBits
          { sink with readBuffer := sink.readBuffer ++ bytes } rest
      | (Except.error ParseError.Corrupt, buf) =>
        ({ sink with readBuffer := buf, status := SinkStatus.Closing },
          PollRes.ready (Except.error (SinkError.Parse ParseError.Corrupt)))

/-- `<MessageSink as Future>::poll` from `lib.rs`.  `Closing` attempts
only the stream half-close; `Closed` faults immediately; `Open` first
offers the outbound buffer to `poll_write` (a ready write drains the
written prefix, a write fault calls `close()` and surfaces the fault),
then stores the context's waker in the outbound buffer's slot and enters
the read loop. -/
def MessageSink.poll (usizeBits : Nat) (sink : MessageSink) (beh : StreamBehavior) :
    MessageSink × PollRes (Except SinkError (List Nat)) :=
  match sink.status with
  | SinkStatus.Open =>
    match beh.writeResult with
    | PollRes.ready (Except.error e) =>
      ({ sink with status := SinkStatus.Closing },
        PollRes.ready (Except.error (SinkError.Write e)))
    | PollRes.ready (Except.ok n) =>
      MessageSink.readLoop usizeBits
        { sink with writeBuffer := sink.writeBuffer.drop n, waker := some beh.cx }
        beh.readResults
    | PollRes.pending =>
      MessageSink.readLoop usizeBits { sink with waker := some beh.cx } beh.readResults
  | SinkStatus.Closing =>
    match beh.closeResult with
    | PollRes.pending => (sink, PollRes.pending)
    | PollRes.ready _ =>
      ({ sink with status := SinkStatus.Closed },
        PollRes.ready (Except.error SinkError.Closed))
  | SinkStatus.Closed => (sink, PollRes.ready (Except.error SinkError.Closed))

theorem finalDecode_limit_eq (u : Nat) (s : MessageSink) :
    (MessageSink.finalDecode u s).1.limit = s.limit := by
  unfold MessageSink.finalDecode
  rcases hd : Frame.tryFrom u s.readBuffer with ⟨res, buf⟩
  match res with
  | Except.ok msg => rfl
  | Except.error ParseError.NotReady => rfl
  | Except.error ParseError.Corrupt => rfl

theorem finalDecode_buffer_le (u : Nat) (s : MessageSink) :
    (MessageSink.finalDecode u s).1.readBuffer.length ≤ s.readBuffer.length := by
  unfold MessageSink.finalDecode
  have h := tryFrom_snd_le u s.readBuffer
  rcases hd : Frame.tryFrom u s.readBuffer with ⟨res, buf⟩
  rw [hd] at h
  match res with
  | Except.ok msg => exact h
  | Except.error ParseError.NotReady => exact Nat.le_refl _
  | Except.error ParseError.Corrupt => exact h

theorem finalDecode_no_parse (u : Nat) (s : MessageSink) (e : ParseError)
    (h32 : 32 ≤ u) (hb : ∀ b ∈ s.readBuffer, b < 256) :
    (MessageSink.finalDecode u s).2 ≠
      PollRes.ready (Except.error (SinkError.Parse e)) := by
  unfold MessageSink.finalDecode
  have h := tryFrom_not_corrupt u s.readBuffer h32 hb
  rcases hd : Frame.tryFrom u s.readBuffer with ⟨res, buf⟩
  rw [hd] at h
  match res with
  | Except.ok msg => simp
  | Except.error ParseError.NotReady => simp
  | Except.error ParseError.Corrupt => exact absurd rfl h

theorem finalDecode_error_closing (u : Nat) (s : MessageSink) (e : SinkError)
    (h : (MessageSink.finalDecode u s).2 = PollRes.ready (Except.error e)) :
    (MessageSink.finalDecode u s).1.status = SinkStatus.Closing := by
  unfold MessageSink.finalDecode at h ⊢
  rcases hd : Frame.tryFrom u s.readBuffer with ⟨res, buf⟩
  rw [hd] at h
  match res with
  | Except.ok msg => simp at h
  | Except.error ParseError.NotReady => simp at h
  | Except.error ParseError.Corrupt => rfl

theorem readLoop_nil (u : Nat) (s : MessageSink) :
    MessageSink.readLoop u s [] = MessageSink.finalDecode u s := rfl

theorem readLoop_pending (u : Nat) (s : MessageSink)
    (rest : List (PollRes (Except Nat (List Nat)))) :
    MessageSink.readLoop u s (PollRes.pending :: rest) = MessageSink.finalDecode u s := rfl

theorem readLoop_read_err (u : Nat) (s : MessageSink) (e : Nat)
    (rest : List (PollRes (Except Nat (List Nat)))) :
    MessageSink.readLoop u s (PollRes.ready (Except.error e) :: rest) =
      ({ s with status := SinkStatus.Closing },
        PollRes.ready (Except.error (SinkError.Read e))) := rfl

theorem readLoop_read_ok (u : Nat) (s : MessageSink) (bytes : List Nat)
    (rest : List (PollRes (Except Nat (List Nat)))) :
    MessageSink.readLoop u s (PollRes.ready (Except.ok bytes) :: rest) =
      if s.readBuffer.length + bytes.length > s.limit then
        ({ s with status := SinkStatus.Closing },
          PollRes.ready (Except.error SinkError.LimitExceeded))
      else
        match Frame.tryFrom u (s.readBuffer ++ bytes) with
        | (Except.ok msg, buf) =>
          ({ s with readBuffer := buf }, PollRes.ready (Except.ok msg))
        | (Except.error ParseError.NotReady, _) =>
          MessageSink.readLoop u { s with readBuffer := s.readBuffer ++ bytes } rest
        | (Except.error ParseError.Corrupt, buf) =>
          ({ s with readBuffer := buf, status := SinkStatus.Closing },
            PollRes.ready (Except.error (SinkError.Parse ParseError.Corrupt))) := rfl

theorem readLoop_limit_inv (u : Nat) (rs : List (PollRes (Except Nat (List Nat)))) :
    ∀ s : MessageSink, s.readBuffer.length ≤ s.limit →
      (MessageSink.readLoop u s rs).1.readBuffer.length ≤
        (MessageSink.readLoop u s rs).1.limit := by
  induction rs with
  | nil =>
    intro s hs
    rw [readLoop_nil, finalDecode_limit_eq]
    exact le_trans (finalDecode_buffer_le u s) hs
  | cons head tail ih =>
    intro s hs
    match head with
    | PollRes.pending =>
      rw [readLoop_pending, finalDecode_limit_eq]
      exact le_trans (finalDecode_buffer_le u s) hs
    | PollRes.ready (Except.error e) =>
      rw [readLoop_read_err]
      exact hs
    | PollRes.ready (Except.ok bytes) =>
      rw [readLoop_read_ok]
      by_cases hlim : s.readBuffer.length + bytes.length > s.limit
      · rw [if_pos hlim]
        exact hs
      · rw [if_neg hlim]
        have hlen : (s.readBuffer ++ bytes).length ≤ s.limit := by
          rw [List.length_append]
          omega
        have hle := tryFrom_snd_le u (s.readBuffer ++ bytes)
        rcases hd : Frame.tryFrom u (s.readBuffer ++ bytes) with ⟨res, buf⟩
        rw [hd] at hle
        match res with
        | Except.ok msg => exact le_trans hle hlen
        | Except.error ParseError.NotReady =>
          exact ih { s with readBuffer := s.readBuffer ++ bytes } hlen
        | Except.error ParseError.Corrupt => exact le_trans hle hlen

theorem readLoop_no_parse (u : Nat) (rs : List (PollRes (Except Nat (List Nat))))
    (h32 : 32 ≤ u) :
    ∀ (s : MessageSink) (e : ParseError), (∀ b ∈ s.readBuffer, b < 256) →
      (∀ bytes, PollRes.ready (Except.ok bytes) ∈ rs → ∀ b ∈ bytes, b < 256) →
      (MessageSink.readLoop u s rs).2 ≠
        PollRes.ready (Except.error (SinkError.Parse e)) := by
  induction rs with
  | nil =>
    intro s e hs _
    rw [readLoop_nil]
    exact finalDecode_no_parse u s e h32 hs
  | cons head tail ih =>
    intro s e hs hrs
    match head with
    | PollRes.pending =>
      rw [readLoop_pending]
      exact finalDecode_no_parse u s e h32 hs
    | PollRes.ready (Except.error err) =>
      rw [readLoop_read_err]
      simp
    | PollRes.ready (Except.ok bytes) =>
      rw [readLoop_read_ok]
      by_cases hlim : s.readBuffer.length + bytes.length > s.limit
      · rw [if_pos hlim]
        simp
      · rw [if_neg hlim]
        have hvalid : ∀ b ∈ s.readBuffer ++ bytes, b < 256 := by
          intro b hb
          rcases List.mem_append.mp hb with hb | hb
          · exact hs b hb
          · exact hrs bytes (List.mem_cons_self _ _) b hb
        have hnc := tryFrom_not_corrupt u (s.readBuffer ++ bytes) h32 hvalid
        rcases hd : Frame.tryFrom u (s.readBuffer ++ bytes) with ⟨res, buf⟩
        rw [hd] at hnc
        match res with
        | Except.ok msg => simp
        | Except.error ParseError.NotReady =>
          exact ih { s with readBuffer := s.readBuffer ++ bytes } e hvalid
            (fun bs hbs => hrs bs (List.mem_cons_of_mem _ hbs))
        | Except.error ParseError.Corrupt => exact absurd rfl hnc

theorem readLoop_error_closing (u : Nat) (rs : List (PollRes (Except Nat (List Nat)))) :
    ∀ (s : MessageSink) (e : SinkError),
      (MessageSink.readLoop u s rs).2 = PollRes.ready (Except.error e) →
      (MessageSink.readLoop u s rs).1.status = SinkStatus.Closing := by
  induction rs with
  | nil =>
    intro s e h
    rw [readLoop_nil] at h ⊢
    exact finalDecode_error_closing u s e h
  | cons head tail ih =>
    intro s e h
    match head with
    | PollRes.pending =>
      rw [readLoop_pending] at h ⊢
      exact finalDecode_error_closing u s e h
    | PollRes.ready (Except.error err) =>
      rw [readLoop_read_err]
    | PollRes.ready (Except.ok bytes) =>
      rw [readLoop_read_ok] at h ⊢
      by_cases hlim : s.readBuffer.length + bytes.length > s.limit
      · rw [if_pos hlim]
      · rw [if_neg hlim] at h ⊢
        rcases hd : Frame.tryFrom u (s.readBuffer ++ bytes) with ⟨res, buf⟩
        rw [hd] at h
        match res with
        | Except.ok msg => simp at h
        | Except.error ParseError.NotReady =>
          exact ih { s with readBuffer := s.readBuffer ++ bytes } e h
        | Except.error ParseError.Corrupt => rfl

theorem poll_closed (u : Nat) (s : MessageSink) (beh : StreamBehavior)
    (h : s.status = SinkStatus.Closed) :
    MessageSink.poll u s beh = (s, PollRes.ready (Except.error SinkError.Closed)) := by
  unfold MessageSink.poll
  rw [h]

theorem poll_closing_pending (u : Nat) (s : MessageSink) (beh : StreamBehavior)
    (h : s.status = SinkStatus.Closing) (hc : beh.closeResult = PollRes.pending) :
    MessageSink.poll u s beh = (s, PollRes.pending) := by
  unfold MessageSink.poll
  rw [h, hc]

theorem poll_closing_ready (u : Nat) (s : MessageSink) (beh : StreamBehavior)
    (r : Except Nat Unit)
    (h : s.status = SinkStatus.Closing) (hc : beh.closeResult = PollRes.ready r) :
    MessageSink.poll u s beh =
      ({ s with status := SinkStatus.Closed },
        PollRes.ready (Except.error SinkError.Closed)) := by
  unfold MessageSink.poll
  rw [h, hc]

theorem poll_open_write_err (u : Nat) (s : MessageSink) (beh : StreamBehavior) (e : Nat)
    (h : s.status = SinkStatus.Open) (hw : beh.writeResult = PollRes.ready (Except.error e)) :
    MessageSink.poll u s beh =
      ({ s with status := SinkStatus.Closing },
        PollRes.ready (Except.error (SinkError.Write e))) := by
  unfold MessageSink.poll
  rw [h, hw]

theorem poll_open_write_ok (u : Nat) (s : MessageSink) (beh : StreamBehavior) (n : Nat)
    (h : s.status = SinkStatus.Open) (hw : beh.writeResult = PollRes.ready (Except.ok n)) :
    MessageSink.poll u s beh =
      MessageSink.readLoop u
        { s with writeBuffer := s.writeBuffer.drop n, waker := some beh.cx }
        beh.readResults := by
  unfold MessageSink.poll
  rw [h, hw]

theorem poll_open_write_pending (u : Nat) (s : MessageSink) (beh : StreamBehavior)
    (h : s.status = SinkStatus.Open) (hw : beh.writeResult = PollRes.pending) :
    MessageSink.poll u s beh =
      MessageSink.readLoop u { s with waker := some beh.cx } beh.readResults := by
  unfold MessageSink.poll
  rw [h, hw]

theorem poll_error_closing (u : Nat) (s : MessageSink) (beh : StreamBehavior)
    (e : SinkError) (hne : e ≠ SinkError.Closed)
    (h : (MessageSink.poll u s beh).2 = PollRes.ready (Except.error e)) :
    (MessageSink.poll u s beh).1.status = SinkStatus.Closing := by
  rcases hs : s.status with _ | _ | _
  · rcases hw : beh.writeResult with ⟨a⟩ | _
    · match a with
      | Except.ok n =>
        rw [poll_open_write_ok u s beh n hs hw] at h ⊢
        exact readLoop_error_closing u beh.readResults _ e h
      | Except.error err =>
        rw [poll_open_write_err u s beh err hs hw]
    · rw [poll_open_write_pending u s beh hs hw] at h ⊢
      exact readLoop_error_closing u beh.readResults _ e h
  · rcases hc : beh.closeResult with ⟨r⟩ | _
    · rw [poll_closing_ready u s beh r hs hc] at h
      simp at h
      exact absurd h.symm hne
    · rw [poll_closing_pending u s beh hs hc] at h
      simp at h
  · rw [poll_closed u s beh hs] at h
    simp at h
    exact absurd h.symm hne

theorem poll_limit_inv (u : Nat) (s : MessageSink) (beh : StreamBehavior)
    (h : s.readBuffer.length ≤ s.limit) :
    (MessageSink.poll u s beh).1.readBuffer.length ≤
      (MessageSink.poll u s beh).1.limit := by
  rcases hs : s.status with _ | _ | _
  · rcases hw : beh.writeResult with ⟨a⟩ | _
    · match a with
      | Except.ok n =>
        rw [poll_open_write_ok u s beh n hs hw]
        exact readLoop_limit_inv u beh.readResults _ h
      | Except.error err =>
        rw [poll_open_write_err u s beh err hs hw]
        exact h
    · rw [poll_open_write_pending u s beh hs hw]
      exact readLoop_limit_inv u beh.readResults _ h
  · rcases hc : beh.closeResult with ⟨r⟩ | _
    · rw [poll_closing_ready u s beh r hs hc]
      exact h
    · rw [poll_closing_pending u s beh hs hc]
      exact h
  · rw [poll_closed u s beh hs]
    exact h

theorem poll_no_parse (u : Nat) (s : MessageSink) (beh : StreamBehavior) (e : ParseError)
    (h32 : 32 ≤ u) (hs : ∀ b ∈ s.readBuffer, b < 256)
    (hbeh : ∀ bytes, PollRes.ready (Except.ok bytes) ∈ beh.readResults →
      ∀ b ∈ bytes, b < 256) :
    (MessageSink.poll u s beh).2 ≠
      PollRes.ready (Except.error (SinkError.Parse e)) := by
  rcases hst : s.status with _ | _ | _
  · rcases hw : beh.writeResult with ⟨a⟩ | _
    · match a with
      | Except.ok n =>
        rw [poll_open_write_ok u s beh n hst hw]
        exact readLoop_no_parse u beh.readResults h32 _ e hs hbeh
      | Except.error err =>
        rw [poll_open_write_err u s beh err hst hw]
        simp
    · rw [poll_open_write_pending u s beh hst hw]
      exact readLoop_no_parse u beh.readResults h32 _ e hs hbeh
  · rcases hc : beh.closeResult with ⟨r⟩ | _
    · rw [poll_closing_ready u s beh r hst hc]
      simp
    · rw [poll_closing_pending u s beh hst hc]
      simp
  · rw [poll_closed u s beh hst]
    simp

/-- Fixture: a stream whose write side faults with error code 0. -/
def behWriteFault : StreamBehavior :=
  { cx := 0, closeResult := PollRes.pending, writeResult := PollRes.ready (Except.error 0),
    readResults := [] }

/-- Fixture: a stream on which every operation would block. -/
def behIdle : StreamBehavior :=
  { cx := 1, closeResult := PollRes.pending, writeResult := PollRes.pending,
    readResults := [] }

/-- Fixture: a stream whose half-close completes at once. -/
def behCloseReady : StreamBehavior :=
  { cx := 2, closeResult := PollRes.ready (Except.ok ()), writeResult := PollRes.pending,
    readResults := [] }

/-- Fixture: a stream delivering one three-byte read, then blocking. -/
def behRead3 : StreamBehavior :=
  { cx := 4, closeResult := PollRes.pending, writeResult := PollRes.pending,
    readResults := [PollRes.ready (Except.ok [1, 2, 3])] }

/-- Fixture: a sink already in the `Closed` state. -/
def closedSink : MessageSink :=
  { readBuffer := [], writeBuffer := [], waker := none,
    status := SinkStatus.Closed, limit := 0 }

/-- Fixture: a sink in the `Closing` state. -/
def closingSink : MessageSink :=
  { readBuffer := [], writeBuffer := [], waker := none,
    status := SinkStatus.Closing, limit := 0 }

/-- Fixture: an open sink with a 2-byte inbound limit. -/
def smallSink : MessageSink :=
  { readBuffer := [], writeBuffer := [], waker := none,
    status := SinkStatus.Open, limit := 2 }

/-- C1 counterexample: after a transport write fault is reported, the sink
is not in the `Closed` state (it is `Closing`), and the next poll returns
pending (it attempts the stream half-close) instead of immediately
returning the closed-fault. -/
theorem c1_counterexample :
    (MessageSink.poll 64 (MessageSink.new 64) behWriteFault).2 =
        PollRes.ready (Except.error (SinkError.Write 0)) ∧
      (MessageSink.poll 64 (MessageSink.new 64) behWriteFault).1.status ≠ SinkStatus.Closed ∧
      (MessageSink.poll 64 (MessageSink.poll 64 (MessageSink.new 64) behWriteFault).1
          behIdle).2 = PollRes.pending := by
  decide

/-- C1 (amended): once a transport fault, size-limit violation, or decode
fault has been reported, the sink is in the `Closing` state; each
subsequent poll attempts only the stream half-close, returning pending
until it completes and then transitioning to `Closed` with the
closed-fault; once `Closed`, every poll immediately returns the
closed-fault without touching the stream or the sink state. -/
theorem c1_fault_then_closing (usizeBits : Nat) (s s2 : MessageSink)
    (beh beh2 beh3 : StreamBehavior) (e : SinkError) (r : Except Nat Unit)
    (h : (MessageSink.poll usizeBits s beh).2 = PollRes.ready (Except.error e))
    (hne : e ≠ SinkError.Closed) :
    (MessageSink.poll usizeBits s beh).1.status = SinkStatus.Closing ∧
      (beh2.closeResult = PollRes.pending →
        MessageSink.poll usizeBits (MessageSink.poll usizeBits s beh).1 beh2 =
          ((MessageSink.poll usizeBits s beh).1, PollRes.pending)) ∧
      (beh2.closeResult = PollRes.ready r →
        MessageSink.poll usizeBits (MessageSink.poll usizeBits s beh).1 beh2 =
          ({ (MessageSink.poll usizeBits s beh).1 with status := SinkStatus.Closed },
            PollRes.ready (Except.error SinkError.Closed))) ∧
      (s2.status = SinkStatus.Closed →
        MessageSink.poll usizeBits s2 beh3 =
          (s2, PollRes.ready (Except.error SinkError.Closed))) := by
  have hst := poll_error_closing usizeBits s beh e hne h
  exact ⟨hst,
    fun hc => poll_closing_pending usizeBits _ beh2 hst hc,
    fun hc => poll_closing_ready usizeBits _ beh2 r hst hc,
    fun h2 => poll_closed usizeBits s2 beh3 h2⟩

/-- C1 witness: the amended claim at the write-fault fixture. -/
theorem c1_fault_then_closing_witness :
    (MessageSink.poll 64 (MessageSink.new 64) behWriteFault).1.status = SinkStatus.Closing ∧
      (behIdle.closeResult = PollRes.pending →
        MessageSink.poll 64 (MessageSink.poll 64 (MessageSink.new 64) behWriteFault).1
            behIdle =
          ((MessageSink.poll 64 (MessageSink.new 64) behWriteFault).1, PollRes.pending)) ∧
      (behIdle.closeResult = PollRes.ready (Except.ok ()) →
        MessageSink.poll 64 (MessageSink.poll 64 (MessageSink.new 64) behWriteFault).1
            behIdle =
          ({ (MessageSink.poll 64 (MessageSink.new 64) behWriteFault).1 with
              status := SinkStatus.Closed },
            PollRes.ready (Except.error SinkError.Closed))) ∧
      (closedSink.status = SinkStatus.Closed →
        MessageSink.poll 64 closedSink behIdle =
          (closedSink, PollRes.ready (Except.error SinkError.Closed))) :=
  c1_fault_then_closing 64 (MessageSink.new 64) closedSink behWriteFault behIdle behIdle
    (SinkError.Write 0) (Except.ok ()) (by decide) (by decide)

/-- C2: every message of length at most `2^32 - 1` encodes successfully,
and decoding exactly the encoded bytes (on a platform whose `usize` has
at least 32 bits) yields the message back and empties the buffer. -/
theorem c2_roundtrip (usizeBits : Nat) (m : List Nat) (h32 : 32 ≤ usizeBits)
    (hm : m.length ≤ 2 ^ 32 - 1) :
    ∃ wire, Frame.encode m = Except.ok wire ∧
      Frame.tryFrom usizeBits wire = (Except.ok m, []) := by
  have hm' : m.length < 2 ^ 32 := by
    rw [pow32_eq] at hm ⊢
    omega
  refine ⟨toLeBytes4 m.length ++ m, ?_, ?_⟩
  · unfold Frame.encode
    rw [if_pos hm']
  · have hshape : toLeBytes4 m.length ++ m =
        m.length % 256 :: m.length / 256 % 256 :: m.length / 65536 % 256 ::
          m.length / 16777216 % 256 :: m := rfl
    rw [hshape, tryFrom_cons, fromLe_toLe m.length hm']
    rw [if_neg (Nat.not_le.mpr
      (lt_of_lt_of_le hm' (Nat.pow_le_pow_right (by norm_num) h32)))]
    rw [if_neg (by simp [List.length_cons])]
    rw [List.take_length, List.drop_length]

/-- C2 witness: round trip at `m = [7, 8, 9]` on a 64-bit platform. -/
theorem c2_roundtrip_witness :
    ∃ wire, Frame.encode [7, 8, 9] = Except.ok wire ∧
      Frame.tryFrom 64 wire = (Except.ok [7, 8, 9], []) :=
  c2_roundtrip 64 [7, 8, 9] (by decide) (by decide)

/-- C3 counterexample: on a 32-bit platform the four-byte buffer
`[255, 255, 255, 255]` satisfies the claim's guard (its declared payload
length plus 4 exceeds the buffer length), yet the bit-faithful decode
panics (`none`) on the `usize` overflow of `size + 4` instead of
returning `NotReady` with the buffer unchanged. -/
theorem c3_counterexample :
    ([255, 255, 255, 255] : List Nat).length <
        declaredLen [255, 255, 255, 255] + 4 ∧
      Frame.tryFromUsize 32 [255, 255, 255, 255] = none ∧
      Frame.tryFromUsize 32 [255, 255, 255, 255] ≠
        some (Except.error ParseError.NotReady, [255, 255, 255, 255]) := by
  decide

/-- C3 (amended): a buffer with fewer than 4 bytes, or whose declared
payload length plus 4 exceeds the buffer length, decodes to `NotReady`
with the buffer byte-for-byte unchanged (header included), provided the
declared length plus 4 fits in the platform size type — automatic on
any target whose `usize` has at least 34 bits (in particular 64-bit
targets), while on a 32-bit target a declared length of `2 ^ 32 - 4` or
more panics instead (see the C3 counterexample).  Stated over the
bit-faithful decode and the exact-arithmetic decode, which agree under
the proviso. -/
theorem c3_not_ready (usizeBits : Nat) (buffer : List Nat)
    (hov : declaredLen buffer + 4 < 2 ^ usizeBits)
    (h : buffer.length < 4 ∨ buffer.length < declaredLen buffer + 4) :
    Frame.tryFromUsize usizeBits buffer =
        some (Except.error ParseError.NotReady, buffer) ∧
      Frame.tryFrom usizeBits buffer = (Except.error ParseError.NotReady, buffer) := by
  have htf : Frame.tryFrom usizeBits buffer =
      (Except.error ParseError.NotReady, buffer) := by
    rcases buffer with _ | ⟨b0, _ | ⟨b1, _ | ⟨b2, _ | ⟨b3, rest⟩⟩⟩⟩
    · rfl
    · rfl
    · rfl
    · rfl
    · simp only [declaredLen] at hov h
      have hcond :
          (b0 :: b1 :: b2 :: b3 :: rest).length < fromLeBytes4 b0 b1 b2 b3 + 4 := by
        rcases h with h | h
        · simp [List.length_cons] at h
          omega
        · exact h
      rw [tryFrom_cons, if_neg (by omega), if_pos hcond]
  refine ⟨?_, htf⟩
  rw [tryFromUsize_eq_tryFrom usizeBits buffer hov, htf]

/-- C3 witness: the five-byte buffer `[5, 0, 0, 0, 1]` declares a 5-byte
payload but holds only one payload byte; on a 64-bit platform the
declared length plus 4 fits `usize`. -/
theorem c3_not_ready_witness :
    Frame.tryFromUsize 64 [5, 0, 0, 0, 1] =
        some (Except.error ParseError.NotReady, [5, 0, 0, 0, 1]) ∧
      Frame.tryFrom 64 [5, 0, 0, 0, 1] =
        (Except.error ParseError.NotReady, [5, 0, 0, 0, 1]) :=
  c3_not_ready 64 [5, 0, 0, 0, 1] (by decide) (Or.inr (by decide))

/-- C4: a buffer holding a complete frame followed by extra bytes decodes
by removing exactly the 4-byte header and the declared payload, returning
the payload and leaving the extra bytes untouched. -/
theorem c4_complete_frame (usizeBits b0 b1 b2 b3 : Nat) (payload extra : List Nat)
    (h32 : 32 ≤ usizeBits)
    (hb0 : b0 < 256) (hb1 : b1 < 256) (hb2 : b2 < 256) (hb3 : b3 < 256)
    (hlen : fromLeBytes4 b0 b1 b2 b3 = payload.length) :
    Frame.tryFrom usizeBits (b0 :: b1 :: b2 :: b3 :: (payload ++ extra)) =
      (Except.ok payload, extra) := by
  have hlt : payload.length < 2 ^ 32 := by
    rw [← hlen]
    exact fromLeBytes4_lt b0 b1 b2 b3 hb0 hb1 hb2 hb3
  rw [tryFrom_cons, hlen]
  rw [if_neg (Nat.not_le.mpr
    (lt_of_lt_of_le hlt (Nat.pow_le_pow_right (by norm_num) h32)))]
  rw [if_neg (by simp only [List.length_cons, List.length_append]; omega)]
  rw [List.take_left, List.drop_left]

/-- C4 witness: header `[2, 0, 0, 0]`, payload `[9, 9]`, trailing `[7]`. -/
theorem c4_complete_frame_witness :
    Frame.tryFrom 64 (2 :: 0 :: 0 :: 0 :: ([9, 9] ++ [7])) = (Except.ok [9, 9], [7]) :=
  c4_complete_frame 64 2 0 0 0 [9, 9] [7] (by decide) (by decide) (by decide)
    (by decide) (by decide) (by decide)

/-- C5: if the inbound buffer is within the limit, it is still within the
limit after any poll; and whenever a read returns `n` bytes that would
push the buffer past the limit, the read loop reports the limit-exceeded
fault at once and the bytes are not appended (the sink keeps its
`readBuffer` and only its status changes, via `close()`). -/
theorem c5_limit_invariant (usizeBits : Nat) (s : MessageSink) (beh : StreamBehavior)
    (bytes : List Nat) (rest : List (PollRes (Except Nat (List Nat))))
    (hinv : s.readBuffer.length ≤ s.limit) :
    ((MessageSink.poll usizeBits s beh).1.readBuffer.length ≤
        (MessageSink.poll usizeBits s beh).1.limit) ∧
      (s.limit < s.readBuffer.length + bytes.length →
        MessageSink.readLoop usizeBits s (PollRes.ready (Except.ok bytes) :: rest) =
          ({ s with status := SinkStatus.Closing },
            PollRes.ready (Except.error SinkError.LimitExceeded))) := by
  refine ⟨poll_limit_inv usizeBits s beh hinv, fun hover => ?_⟩
  rw [readLoop_read_ok, if_pos hover]

/-- C5 witness: a sink limited to 2 bytes offered a 3-byte read. -/
theorem c5_limit_invariant_witness :
    ((MessageSink.poll 64 smallSink behRead3).1.readBuffer.length ≤
        (MessageSink.poll 64 smallSink behRead3).1.limit) ∧
      (smallSink.limit < smallSink.readBuffer.length + [1, 2, 3].length →
        MessageSink.readLoop 64 smallSink (PollRes.ready (Except.ok [1, 2, 3]) :: []) =
          ({ smallSink with status := SinkStatus.Closing },
            PollRes.ready (Except.error SinkError.LimitExceeded))) :=
  c5_limit_invariant 64 smallSink behRead3 [1, 2, 3] [] (by decide)

/-- C6: a header whose value does not fit the platform size type decodes
to `Corrupt`; the bytes are removed exactly as far as they were consumed,
and the error occurs before any byte is consumed, so the buffer is
unchanged. -/
theorem c6_corrupt_header (usizeBits b0 b1 b2 b3 : Nat) (rest : List Nat)
    (h : 2 ^ usizeBits ≤ fromLeBytes4 b0 b1 b2 b3) :
    Frame.tryFrom usizeBits (b0 :: b1 :: b2 :: b3 :: rest) =
      (Except.error ParseError.Corrupt, b0 :: b1 :: b2 :: b3 :: rest) := by
  rw [tryFrom_cons, if_pos h]

/-- C6 witness: on a 16-bit platform the header `[0, 0, 1, 0]` (value
65536) overflows `usize`. -/
theorem c6_corrupt_header_witness :
    Frame.tryFrom 16 (0 :: 0 :: 1 :: 0 :: []) =
      (Except.error ParseError.Corrupt, 0 :: 0 :: 1 :: 0 :: []) :=
  c6_corrupt_header 16 0 0 1 0 [] (by decide)

/-- C7: `write` succeeds exactly when the message length fits in 32 bits;
on failure the error is returned synchronously and the sink — outbound
buffer included — is unchanged. -/
theorem c7_write_size_check (s : MessageSink) (m : List Nat) :
    MessageSink.write s m =
      if m.length < 2 ^ 32 then
        (Except.ok (),
          { s with
            writeBuffer := s.writeBuffer ++ (toLeBytes4 m.length ++ m)
            waker := none })
      else
        (Except.error ParseError.Corrupt, s) := by
  by_cases hc : m.length < 2 ^ 32
  · rw [if_pos hc]
    unfold MessageSink.write Frame.encode
    rw [if_pos hc]
  · rw [if_neg hc]
    unfold MessageSink.write Frame.encode
    rw [if_neg hc]

/-- C8: after `close()` the status is `Closing`; a poll in `Closing`
returns pending while the stream half-close is incomplete, and on the
poll where it completes the sink transitions to `Closed` and the
closed-fault is reported to the caller. -/
theorem c8_close_half_close (usizeBits : Nat) (s t : MessageSink)
    (beh : StreamBehavior) (r : Except Nat Unit)
    (h : t.status = SinkStatus.Closing) :
    (MessageSink.close s).status = SinkStatus.Closing ∧
      (beh.closeResult = PollRes.pending →
        MessageSink.poll usizeBits t beh = (t, PollRes.pending)) ∧
      (beh.closeResult = PollRes.ready r →
        MessageSink.poll usizeBits t beh =
          ({ t with status := SinkStatus.Closed },
            PollRes.ready (Except.error SinkError.Closed))) := by
  exact ⟨rfl,
    fun hc => poll_closing_pending usizeBits t beh h hc,
    fun hc => poll_closing_ready usizeBits t beh r h hc⟩

/-- C8 witness: a closing sink over a stream whose half-close completes
at once. -/
theorem c8_close_half_close_witness :
    (MessageSink.close smallSink).status = SinkStatus.Closing ∧
      (behCloseReady.closeResult = PollRes.pending →
        MessageSink.poll 64 closingSink behCloseReady = (closingSink, PollRes.pending)) ∧
      (behCloseReady.closeResult = PollRes.ready (Except.ok ()) →
        MessageSink.poll 64 closingSink behCloseReady =
          ({ closingSink with status := SinkStatus.Closed },
            PollRes.ready (Except.error SinkError.Closed))) :=
  c8_close_half_close 64 smallSink closingSink behCloseReady (Except.ok ()) (by decide)

/-- C9: on a platform whose size type holds at least 32 bits, decoding a
buffer of well-formed bytes never returns `Corrupt`, and consequently a
poll over well-formed inbound bytes can never surface a parse fault. -/
theorem c9_no_corrupt_32bit (usizeBits : Nat) (buffer : List Nat) (s : MessageSink)
    (beh : StreamBehavior) (e : ParseError) (h32 : 32 ≤ usizeBits)
    (hbuf : ∀ b ∈ buffer, b < 256)
    (hs : ∀ b ∈ s.readBuffer, b < 256)
    (hbeh : ∀ bytes, PollRes.ready (Except.ok bytes) ∈ beh.readResults →
      ∀ b ∈ bytes, b < 256) :
    (Frame.tryFrom usizeBits buffer).1 ≠ Except.error ParseError.Corrupt ∧
      (MessageSink.poll usizeBits s beh).2 ≠
        PollRes.ready (Except.error (SinkError.Parse e)) :=
  ⟨tryFrom_not_corrupt usizeBits buffer h32 hbuf,
    poll_no_parse usizeBits s beh e h32 hs hbeh⟩

/-- C9 witness: a 64-bit platform, a concrete buffer and a sink fed one
well-formed read. -/
theorem c9_no_corrupt_32bit_witness :
    (Frame.tryFrom 64 [1, 2, 3]).1 ≠ Except.error ParseError.Corrupt ∧
      (MessageSink.poll 64 smallSink behIdle).2 ≠
        PollRes.ready (Except.error (SinkError.Parse ParseError.Corrupt)) :=
  c9_no_corrupt_32bit 64 [1, 2, 3] smallSink behIdle ParseError.Corrupt
    (by decide) (by decide) (by decide)
    (fun bytes hmem => nomatch hmem)

/-- C10: `write` ignores the lifecycle state: for any sink (Open, Closing
or Closed) and any message whose length fits in 32 bits, `write` succeeds
and appends the encoded frame to the outbound buffer. -/
theorem c10_write_any_status (s : MessageSink) (m : List Nat)
    (hm : m.length < 2 ^ 32) :
    ∃ wire, Frame.encode m = Except.ok wire ∧
      MessageSink.write s m =
        (Except.ok (),
          { s with writeBuffer := s.writeBuffer ++ wire, waker := none }) := by
  have henc : Frame.encode m = Except.ok (toLeBytes4 m.length ++ m) := by
    unfold Frame.encode
    rw [if_pos hm]
  refine ⟨toLeBytes4 m.length ++ m, henc, ?_⟩
  unfold MessageSink.write
  rw [henc]

/-- C10 witness: writing `[5]` to a sink already in the `Closing` state
succeeds and enqueues the frame. -/
theorem c10_write_any_status_witness :
    ∃ wire, Frame.encode [5] = Except.ok wire ∧
      MessageSink.write closingSink [5] =
        (Except.ok (),
          { closingSink with
            writeBuffer := closingSink.writeBuffer ++ wire
            waker := none }) :=
  c10_write_any_status closingSink [5] (by decide)
